import Mathlib

/-!
Shallow embedding of the `rtd` todo application (src/lib.rs, src/main.rs).

The storage layer (src/lib.rs) keeps all state in one SQLite table:

  CREATE TABLE IF NOT EXISTS todos(
      id INTEGER PRIMARY KEY AUTOINCREMENT,
      title TEXT NOT NULL UNIQUE,
      description TEXT,
      complete BOOLEAN DEFAULT false);

We model a connection's database state as an optional `Table`: `none` before
`initialize_tables` has created the table, `some t` afterwards.  A `Table`
carries the list of persisted rows together with the AUTOINCREMENT counter
(SQLite assigns each inserted row an id strictly larger than every id ever
assigned before; with no DELETE in this program the counter is one more than
the number of successful inserts).  Operations return their `rusqlite`
result together with the (possibly updated) database state, mirroring the
in-place mutation of the SQLite connection.
-/

namespace Rtd

/-- The `Todo` struct of src/lib.rs: id (i64), title, description, complete. -/
structure Todo where
  id : Int
  title : String
  description : String
  complete : Bool
deriving Repr, DecidableEq

/-- The `rusqlite` errors this program can surface.
`noSuchTable` is the prepare-time failure when the `todos` table does not
exist; `uniqueConstraintViolation` is the SQLITE_CONSTRAINT failure on the
UNIQUE `title` column; `notFound` is rusqlite's `QueryReturnedNoRows`, which
the spec calls `NotFound`. -/
inductive DbError where
  | noSuchTable
  | uniqueConstraintViolation
  | notFound
deriving Repr, DecidableEq

/-- The `todos` table: its persisted rows and the AUTOINCREMENT counter. -/
structure Table where
  rows : List Todo
  nextId : Int
deriving Repr, DecidableEq

/-- The state behind one database connection: the `todos` table, if created. -/
structure DBState where
  table : Option Table
deriving Repr, DecidableEq

/-- What `get_connection` (src/lib.rs lines 10-16) opens: a transient
in-memory database, or the database file at the given path. -/
inductive ConnTarget where
  | memory
  | file (path : String)
deriving Repr, DecidableEq

/-- `get_connection` of src/lib.rs: opens an in-memory database exactly when
the argument equals the sentinel string, otherwise opens the file at `path`. -/
def get_connection (path : String) : ConnTarget :=
  if path = ":memory:" then ConnTarget.memory else ConnTarget.file path

/-- The database state behind a freshly opened connection (in-memory, or a
file that did not exist yet): no `todos` table. -/
def freshConn : DBState := ⟨none⟩

/-- `initialize_tables` of src/lib.rs lines 99-111: CREATE TABLE IF NOT
EXISTS.  Creates an empty table when absent, leaves the state untouched when
the table already exists; succeeds in both cases. -/
def initialize_tables (s : DBState) : Except DbError Unit × DBState :=
  match s.table with
  | none => (Except.ok (), ⟨some ⟨[], 1⟩⟩)
  | some _ => (Except.ok (), s)

/-- The state after initializing a fresh connection: empty table, first
AUTOINCREMENT id 1. -/
def initState : DBState := ⟨some ⟨[], 1⟩⟩

/-- `Todo::save` of src/lib.rs lines 46-56: INSERT INTO todos(title,
description, complete).  Fails at prepare time when the table is missing;
fails with a UNIQUE-constraint violation (leaving the table untouched) when
some persisted row already has this title; otherwise appends a row whose id
is the freshly assigned rowid and returns the todo with that id filled in. -/
def Todo.save (todo : Todo) (s : DBState) : Except DbError Todo × DBState :=
  match s.table with
  | none => (Except.error DbError.noSuchTable, s)
  | some t =>
    if t.rows.any (fun r => r.title == todo.title) then
      (Except.error DbError.uniqueConstraintViolation, s)
    else
      let row : Todo :=
        { id := t.nextId, title := todo.title,
          description := todo.description, complete := todo.complete }
      (Except.ok row, ⟨some ⟨t.rows ++ [row], t.nextId + 1⟩⟩)

/-- `Todo::from_id` of src/lib.rs lines 59-74: SELECT ... WHERE id = ?,
via `query_row`, which yields the first matching row or
`QueryReturnedNoRows`.  Read-only, so only the result is returned. -/
def Todo.from_id (id : Int) (s : DBState) : Except DbError Todo :=
  match s.table with
  | none => Except.error DbError.noSuchTable
  | some t =>
    match t.rows.find? (fun r => r.id == id) with
    | none => Except.error DbError.notFound
    | some r => Except.ok r

/-- `get_all_todos` of src/lib.rs lines 114-131: SELECT every row, in the
engine's scan order.  Read-only. -/
def get_all_todos (s : DBState) : Except DbError (List Todo) :=
  match s.table with
  | none => Except.error DbError.noSuchTable
  | some t => Except.ok t.rows

/-- The `PartialEq` impl for `Todo` (src/lib.rs lines 77-81): compares id,
title and description, ignoring the completion flag. -/
def Todo.eq (a b : Todo) : Bool :=
  a.id == b.id && a.title == b.title && a.description == b.description

/-- Saving a list of todos one after another, stopping at the first error:
the driver used by the N-inserts properties. -/
def saveAll (todos : List Todo) (s : DBState) : Except DbError DBState :=
  match todos with
  | [] => Except.ok s
  | todo :: rest =>
    match Todo.save todo s with
    | (Except.ok _, s') => saveAll rest s'
    | (Except.error e, _) => Except.error e

/-- Well-formedness of a table state: row ids are pairwise distinct and
below the AUTOINCREMENT counter, and titles are pairwise distinct (the
UNIQUE constraint).  Every table SQLite actually builds satisfies this. -/
def Table.WF (t : Table) : Prop :=
  t.rows.Pairwise (fun a b => a.id ≠ b.id) ∧
  (∀ r ∈ t.rows, r.id < t.nextId) ∧
  t.rows.Pairwise (fun a b => a.title ≠ b.title)

/-- The database states reachable from a freshly initialized in-memory
store by the exposed operations.  `from_id` and `get_all_todos` are
read-only; `save` and `initialize_tables` return their updated state. -/
inductive Reachable : DBState → Prop where
  | init : Reachable initState
  | save (todo : Todo) {s : DBState} :
      Reachable s → Reachable (Todo.save todo s).2
  | reinit {s : DBState} :
      Reachable s → Reachable (initialize_tables s).2

/-! ### Reduction lemmas for the operations, given the table state -/

theorem save_ok_eq (todo : Todo) (s : DBState) (t : Table) (hs : s.table = some t)
    (hfresh : ∀ r ∈ t.rows, r.title ≠ todo.title) :
    Todo.save todo s =
      (Except.ok ⟨t.nextId, todo.title, todo.description, todo.complete⟩,
       ⟨some ⟨t.rows ++ [⟨t.nextId, todo.title, todo.description, todo.complete⟩],
              t.nextId + 1⟩⟩) := by
  obtain ⟨tb⟩ := s
  obtain rfl : tb = some t := hs
  have hany : t.rows.any (fun r => r.title == todo.title) = false := by
    rw [List.any_eq_false]
    intro r hr
    simpa using hfresh r hr
  simp [Todo.save, hany]

theorem save_dup_eq (todo : Todo) (s : DBState) (t : Table) (hs : s.table = some t)
    (hdup : ∃ r ∈ t.rows, r.title = todo.title) :
    Todo.save todo s = (Except.error DbError.uniqueConstraintViolation, s) := by
  obtain ⟨tb⟩ := s
  obtain rfl : tb = some t := hs
  have hany : t.rows.any (fun r => r.title == todo.title) = true := by
    rw [List.any_eq_true]
    rcases hdup with ⟨r, hr, h⟩
    exact ⟨r, hr, by simpa using h⟩
  simp [Todo.save, hany]

theorem from_id_eq (id : Int) (s : DBState) (t : Table) (hs : s.table = some t) :
    Todo.from_id id s =
      match t.rows.find? (fun r => r.id == id) with
      | none => Except.error DbError.notFound
      | some r => Except.ok r := by
  obtain ⟨tb⟩ := s
  obtain rfl : tb = some t := hs
  rfl

theorem from_id_mk (id : Int) (t : Table) :
    Todo.from_id id ⟨some t⟩ =
      match t.rows.find? (fun r => r.id == id) with
      | none => Except.error DbError.notFound
      | some r => Except.ok r := rfl

theorem get_all_todos_eq (s : DBState) (t : Table) (hs : s.table = some t) :
    get_all_todos s = Except.ok t.rows := by
  obtain ⟨tb⟩ := s
  obtain rfl : tb = some t := hs
  rfl

/-- Claim C1: for a task whose title is non-empty and not yet present in the
table, saving it and then fetching by the returned id yields a record equal
to the saved one (in the sense of the PartialEq impl): title and description
match the input exactly and the id agrees between the two calls. -/
theorem C1_save_then_fetch (todo : Todo) (t : Table) (s : DBState)
    (hs : s.table = some t) (hwf : t.WF) (hne : todo.title ≠ "")
    (hfresh : ∀ r ∈ t.rows, r.title ≠ todo.title) :
    ∃ saved s' fetched,
      Todo.save todo s = (Except.ok saved, s') ∧
      Todo.from_id saved.id s' = Except.ok fetched ∧
      Todo.eq fetched saved = true ∧
      fetched.title = todo.title ∧ fetched.description = todo.description ∧
      fetched.id = saved.id := by
  refine ⟨⟨t.nextId, todo.title, todo.description, todo.complete⟩, _,
          ⟨t.nextId, todo.title, todo.description, todo.complete⟩,
          save_ok_eq todo s t hs hfresh, ?_, by simp [Todo.eq], rfl, rfl, rfl⟩
  rw [from_id_mk]
  have hnone : t.rows.find?
      (fun r => r.id == (⟨t.nextId, todo.title, todo.description, todo.complete⟩ : Todo).id)
      = none := by
    rw [List.find?_eq_none]
    intro r hr
    have h2 := hwf.2.1 r hr
    simp only [beq_iff_eq]
    intro h3
    omega
  rw [List.find?_append, hnone]
  simp [List.find?]

/-- Claim C1 witness: a concrete save-then-fetch round trip on a fresh store. -/
theorem C1_witness :
    ((⟨0, "Buy milk", "2% milk", false⟩ : Todo).title ≠ "" ∧
      ∀ r ∈ (⟨[], 1⟩ : Table).rows, r.title ≠ "Buy milk") ∧
    (∃ saved s' fetched,
      Todo.save ⟨0, "Buy milk", "2% milk", false⟩ initState = (Except.ok saved, s') ∧
      Todo.from_id saved.id s' = Except.ok fetched ∧
      Todo.eq fetched saved = true ∧
      fetched.title = "Buy milk" ∧ fetched.description = "2% milk" ∧
      fetched.id = saved.id) :=
  ⟨⟨by decide, by simp⟩,
   C1_save_then_fetch ⟨0, "Buy milk", "2% milk", false⟩ ⟨[], 1⟩ initState rfl
     ⟨List.Pairwise.nil, by simp, List.Pairwise.nil⟩ (by decide) (by simp)⟩

theorem filter_length_one_of_pairwise (title : String) (l : List Todo)
    (hp : l.Pairwise (fun a b => a.title ≠ b.title)) (hex : ∃ r ∈ l, r.title = title) :
    (l.filter (fun r => r.title == title)).length = 1 := by
  induction l with
  | nil =>
    rcases hex with ⟨r, hr, _⟩
    cases hr
  | cons a l ih =>
    rcases List.pairwise_cons.mp hp with ⟨ha, hl⟩
    by_cases hat : a.title = title
    · have hnil : l.filter (fun r => r.title == title) = [] := by
        rw [List.filter_eq_nil_iff]
        intro r hr
        have h2 := ha r hr
        simp only [beq_iff_eq]
        rw [← hat]
        exact fun h => h2 h.symm
      rw [List.filter_cons]
      simp [hat, hnil]
    · rcases hex with ⟨r, hr, hrt⟩
      rcases List.mem_cons.mp hr with rfl | hr'
      · exact absurd hrt hat
      · rw [List.filter_cons]
        have h3 := ih hl ⟨r, hr', hrt⟩
        simpa [hat] using h3

/-- Claim C2: saving a task whose title already occurs in a persisted row
fails with the UNIQUE-constraint violation, the table is unchanged, and it
still contains exactly one record with that title. -/
theorem C2_duplicate_insert (todo : Todo) (t : Table) (s : DBState)
    (hs : s.table = some t) (hwf : t.WF)
    (hdup : ∃ r ∈ t.rows, r.title = todo.title) :
    Todo.save todo s = (Except.error DbError.uniqueConstraintViolation, s) ∧
    (t.rows.filter (fun r => r.title == todo.title)).length = 1 :=
  ⟨save_dup_eq todo s t hs hdup,
   filter_length_one_of_pairwise todo.title t.rows hwf.2.2 hdup⟩

/-- Claim C2 witness: inserting a concrete duplicate title fails and leaves
the single matching row in place. -/
theorem C2_witness :
    (∃ r ∈ ([⟨1, "a", "b", false⟩] : List Todo), r.title = "a") ∧
    (Todo.save ⟨0, "a", "c", true⟩ ⟨some ⟨[⟨1, "a", "b", false⟩], 2⟩⟩ =
        (Except.error DbError.uniqueConstraintViolation, ⟨some ⟨[⟨1, "a", "b", false⟩], 2⟩⟩) ∧
      (([⟨1, "a", "b", false⟩] : List Todo).filter (fun r => r.title == "a")).length = 1) :=
  ⟨⟨⟨1, "a", "b", false⟩, by simp, rfl⟩,
   C2_duplicate_insert ⟨0, "a", "c", true⟩ ⟨[⟨1, "a", "b", false⟩], 2⟩
     ⟨some ⟨[⟨1, "a", "b", false⟩], 2⟩⟩ rfl
     ⟨by simp, by simp, by simp⟩ ⟨⟨1, "a", "b", false⟩, by simp, rfl⟩⟩

/-- Claim C5: fetching by an id that no persisted row carries yields the
NotFound error (rusqlite's QueryReturnedNoRows). -/
theorem C5_from_id_missing (id : Int) (t : Table) (s : DBState)
    (hs : s.table = some t) (hid : ∀ r ∈ t.rows, r.id ≠ id) :
    Todo.from_id id s = Except.error DbError.notFound := by
  rw [from_id_eq id s t hs]
  have hnone : t.rows.find? (fun r => r.id == id) = none := by
    rw [List.find?_eq_none]
    intro r hr
    simpa using hid r hr
  rw [hnone]

/-- Claim C5 witness: fetching id 5 from a store holding only id 1 fails. -/
theorem C5_witness :
    (∀ r ∈ ([⟨1, "a", "b", false⟩] : List Todo), r.id ≠ 5) ∧
    Todo.from_id 5 ⟨some ⟨[⟨1, "a", "b", false⟩], 2⟩⟩ = Except.error DbError.notFound :=
  ⟨by simp,
   C5_from_id_missing 5 ⟨[⟨1, "a", "b", false⟩], 2⟩ ⟨some ⟨[⟨1, "a", "b", false⟩], 2⟩⟩ rfl
     (by simp)⟩

/-- Claim C6: get_connection opens the transient in-memory database exactly
for the sentinel string, and for every other string (near-miss typos
included) it opens the database file named by that string. -/
theorem C6_get_connection (p : String) :
    (get_connection p = ConnTarget.memory ↔ p = ":memory:") ∧
    (p ≠ ":memory:" → get_connection p = ConnTarget.file p) := by
  constructor
  · constructor
    · intro h
      by_contra hne
      simp [get_connection, hne] at h
    · intro h
      simp [get_connection, h]
  · intro h
    simp [get_connection, h]

/-- Claim C6 witness: the near-miss typo of main.rs opens a file named by the
typo, while the canonical sentinel opens the in-memory database. -/
theorem C6_witness :
    get_connection ":memory" = ConnTarget.file ":memory" ∧
    get_connection ":memory:" = ConnTarget.memory :=
  ⟨(C6_get_connection ":memory").2 (by decide),
   (C6_get_connection ":memory:").1.mpr rfl⟩

/-- Claim C9: the PartialEq impl returns true exactly when id, title and
description all match; the completion flag never affects the result, so two
records differing only in that flag compare equal. -/
theorem C9_partial_eq (a b : Todo) :
    (Todo.eq a b = true ↔ a.id = b.id ∧ a.title = b.title ∧ a.description = b.description) ∧
    Todo.eq a ⟨a.id, a.title, a.description, b.complete⟩ = true := by
  constructor
  · simp [Todo.eq, and_assoc]
  · simp [Todo.eq]

/-- Claim C9 witness: two concrete records differing only in the completion
flag compare equal. -/
theorem C9_witness :
    Todo.eq ⟨1, "a", "b", true⟩ ⟨1, "a", "b", false⟩ = true :=
  (C9_partial_eq ⟨1, "a", "b", true⟩ ⟨1, "a", "b", false⟩).2

/-! ### Well-formedness is preserved by the exposed operations -/

/-- A database state is well-formed when its table, if created, is. -/
def DBState.WF (s : DBState) : Prop := ∀ t, s.table = some t → t.WF

theorem initState_WF : DBState.WF initState := by
  intro t ht
  obtain rfl : (⟨[], 1⟩ : Table) = t := Option.some.inj ht
  exact ⟨List.Pairwise.nil, by simp, List.Pairwise.nil⟩

theorem save_preserves_WF (todo : Todo) (s : DBState) (hwf : DBState.WF s) :
    DBState.WF (Todo.save todo s).2 := by
  obtain ⟨tb⟩ := s
  cases tb with
  | none => exact hwf
  | some t =>
    have htwf := hwf t rfl
    by_cases hany : t.rows.any (fun r => r.title == todo.title) = true
    · have hstate : (Todo.save todo ⟨some t⟩).2 = ⟨some t⟩ := by
        simp [Todo.save, hany]
      rw [hstate]
      exact hwf
    · have hfresh : ∀ r ∈ t.rows, r.title ≠ todo.title := by
        rw [Bool.not_eq_true, List.any_eq_false] at hany
        intro r hr
        simpa using hany r hr
      rw [save_ok_eq todo ⟨some t⟩ t rfl hfresh]
      intro t' ht'
      obtain rfl : (⟨t.rows ++ [⟨t.nextId, todo.title, todo.description, todo.complete⟩],
          t.nextId + 1⟩ : Table) = t' := Option.some.inj ht'
      refine ⟨?_, ?_, ?_⟩
      · rw [List.pairwise_append]
        refine ⟨htwf.1, by simp, ?_⟩
        intro a ha b hb
        rw [List.mem_singleton] at hb
        subst hb
        have h2 := htwf.2.1 a ha
        simp only []
        intro h3
        omega
      · intro r hr
        rcases List.mem_append.mp hr with h | h
        · have := htwf.2.1 r h
          simp only []
          omega
        · rw [List.mem_singleton] at h
          subst h
          simp only []
          omega
      · rw [List.pairwise_append]
        refine ⟨htwf.2.2, by simp, ?_⟩
        intro a ha b hb
        rw [List.mem_singleton] at hb
        subst hb
        simpa using hfresh a ha

theorem initialize_preserves_WF (s : DBState) (hwf : DBState.WF s) :
    DBState.WF (initialize_tables s).2 := by
  obtain ⟨tb⟩ := s
  cases tb with
  | none =>
    intro t ht
    obtain rfl : (⟨[], 1⟩ : Table) = t := Option.some.inj ht
    exact ⟨List.Pairwise.nil, by simp, List.Pairwise.nil⟩
  | some t => exact hwf

theorem reachable_WF (s : DBState) (h : Reachable s) : DBState.WF s := by
  induction h with
  | init => exact initState_WF
  | save todo _ ih => exact save_preserves_WF todo _ ih
  | reinit _ ih => exact initialize_preserves_WF _ ih

/-- Claim C3 (amended): in every state reachable from a freshly initialized
store, no two persisted records share a title.  (The non-empty-title half of
the original claim fails: saving an empty-titled todo succeeds, since the
column's NOT NULL constraint does not exclude the empty string.) -/
theorem C3_titles_unique (s : DBState) (hs : Reachable s) (t : Table)
    (ht : s.table = some t) :
    t.rows.Pairwise (fun a b => a.title ≠ b.title) :=
  (reachable_WF s hs t ht).2.2

/-- Claim C3 counterexample: a reachable state (fresh store, then one save of
an empty-titled todo) whose single persisted record has an empty title. -/
theorem C3_counterexample :
    Reachable ⟨some ⟨[⟨1, "", "", false⟩], 2⟩⟩ ∧
    get_all_todos ⟨some ⟨[⟨1, "", "", false⟩], 2⟩⟩ = Except.ok [⟨1, "", "", false⟩] ∧
    ∃ r ∈ ([⟨1, "", "", false⟩] : List Todo), r.title = "" := by
  refine ⟨?_, rfl, ⟨1, "", "", false⟩, by simp, rfl⟩
  have h := Reachable.save (⟨0, "", "", false⟩ : Todo) Reachable.init
  have he : (Todo.save (⟨0, "", "", false⟩ : Todo) initState).2
      = ⟨some ⟨[⟨1, "", "", false⟩], 2⟩⟩ := rfl
  rwa [he] at h

/-- Claim C3 witness: the amended statement applied to a concrete reachable
one-row state. -/
theorem C3_witness :
    Reachable ⟨some ⟨[⟨1, "t1", "d", false⟩], 2⟩⟩ ∧
    ([⟨1, "t1", "d", false⟩] : List Todo).Pairwise (fun a b => a.title ≠ b.title) := by
  have h := Reachable.save (⟨0, "t1", "d", false⟩ : Todo) Reachable.init
  have he : (Todo.save (⟨0, "t1", "d", false⟩ : Todo) initState).2
      = ⟨some ⟨[⟨1, "t1", "d", false⟩], 2⟩⟩ := rfl
  rw [he] at h
  exact ⟨h, C3_titles_unique _ h ⟨[⟨1, "t1", "d", false⟩], 2⟩ rfl⟩

/-- Claim C4: opening the fresh in-memory store and initializing the schema
succeeds; initialization always succeeds and is idempotent, and on a
connection whose table already exists (rows included) it returns success and
leaves the state exactly as it was. -/
theorem C4_initialize_idempotent (s : DBState) :
    get_connection ":memory:" = ConnTarget.memory ∧
    initialize_tables freshConn = (Except.ok (), initState) ∧
    (initialize_tables s).1 = Except.ok () ∧
    initialize_tables (initialize_tables s).2 = (Except.ok (), (initialize_tables s).2) ∧
    (∀ t, s.table = some t → initialize_tables s = (Except.ok (), s)) := by
  refine ⟨rfl, rfl, ?_, ?_, ?_⟩
  · obtain ⟨tb⟩ := s
    cases tb <;> rfl
  · obtain ⟨tb⟩ := s
    cases tb <;> rfl
  · intro t ht
    obtain ⟨tb⟩ := s
    obtain rfl : tb = some t := ht
    rfl

/-- Claim C4 witness: re-initializing over a concrete populated table keeps
the table and its rows intact. -/
theorem C4_witness :
    (⟨some ⟨[⟨1, "a", "b", true⟩], 2⟩⟩ : DBState).table = some ⟨[⟨1, "a", "b", true⟩], 2⟩ ∧
    initialize_tables ⟨some ⟨[⟨1, "a", "b", true⟩], 2⟩⟩ =
      (Except.ok (), ⟨some ⟨[⟨1, "a", "b", true⟩], 2⟩⟩) :=
  ⟨rfl, (C4_initialize_idempotent ⟨some ⟨[⟨1, "a", "b", true⟩], 2⟩⟩).2.2.2.2
    ⟨[⟨1, "a", "b", true⟩], 2⟩ rfl⟩

theorem saveAll_ok (todos : List Todo) :
    ∀ t : Table, todos.Pairwise (fun a b => a.title ≠ b.title) →
      (∀ td ∈ todos, ∀ r ∈ t.rows, r.title ≠ td.title) →
      ∃ t' : Table, saveAll todos ⟨some t⟩ = Except.ok ⟨some t'⟩ ∧
        t'.rows.length = t.rows.length + todos.length := by
  induction todos with
  | nil =>
    intro t _ _
    exact ⟨t, rfl, by simp⟩
  | cons td rest ih =>
    intro t hp hfresh
    have hf : ∀ r ∈ t.rows, r.title ≠ td.title := fun r hr => hfresh td (by simp) r hr
    have hcons := List.pairwise_cons.mp hp
    have hstep : saveAll (td :: rest) ⟨some t⟩ =
        saveAll rest ⟨some ⟨t.rows ++ [⟨t.nextId, td.title, td.description, td.complete⟩],
          t.nextId + 1⟩⟩ := by
      simp only [saveAll]
      rw [save_ok_eq td ⟨some t⟩ t rfl hf]
    rw [hstep]
    have hfr : ∀ u ∈ rest,
        ∀ r ∈ (⟨t.rows ++ [⟨t.nextId, td.title, td.description, td.complete⟩],
          t.nextId + 1⟩ : Table).rows, r.title ≠ u.title := by
      intro u hu r hr
      rcases List.mem_append.mp hr with h1 | h2
      · exact hfresh u (by simp [hu]) r h1
      · rw [List.mem_singleton] at h2
        subst h2
        simpa using hcons.1 u hu
    rcases ih ⟨t.rows ++ [⟨t.nextId, td.title, td.description, td.complete⟩], t.nextId + 1⟩
      hcons.2 hfr with ⟨t', h1, h2⟩
    refine ⟨t', h1, ?_⟩
    simp at h2 ⊢
    omega

/-- Claim C7: saving any number of todos with pairwise distinct titles into a
freshly initialized store succeeds, and fetching all todos afterwards returns
exactly as many records as were saved. -/
theorem C7_save_n_fetch_all (todos : List Todo)
    (hp : todos.Pairwise (fun a b => a.title ≠ b.title)) :
    ∃ s', saveAll todos initState = Except.ok s' ∧
      ∃ l, get_all_todos s' = Except.ok l ∧ l.length = todos.length := by
  rcases saveAll_ok todos ⟨[], 1⟩ hp (by simp) with ⟨t', h1, h2⟩
  exact ⟨⟨some t'⟩, h1, t'.rows, rfl, by simpa using h2⟩

/-- Claim C7 witness: two concrete distinct-titled todos saved into a fresh
store; fetching all returns two records. -/
theorem C7_witness :
    ([⟨0, "Test 1", "a", false⟩, ⟨0, "Test 2", "b", true⟩] : List Todo).Pairwise
        (fun a b => a.title ≠ b.title) ∧
    (∃ s', saveAll [⟨0, "Test 1", "a", false⟩, ⟨0, "Test 2", "b", true⟩] initState
        = Except.ok s' ∧
      ∃ l, get_all_todos s' = Except.ok l ∧ l.length = 2) :=
  ⟨by decide, C7_save_n_fetch_all _ (by decide)⟩

/-- Claim C8: whenever save succeeds, the returned record carries the id the
database assigned to the newly inserted row while its title, description and
completion flag are exactly those of the input, and the rows that existed
before the insert are unchanged: the new table is the old rows with the one
new row appended. -/
theorem C8_save_frame (todo r : Todo) (s s' : DBState) (t : Table)
    (hs : s.table = some t) (h : Todo.save todo s = (Except.ok r, s')) :
    r.id = t.nextId ∧ r.title = todo.title ∧ r.description = todo.description ∧
    r.complete = todo.complete ∧
    s' = ⟨some ⟨t.rows ++ [r], t.nextId + 1⟩⟩ := by
  obtain ⟨tb⟩ := s
  obtain rfl : tb = some t := hs
  by_cases hany : t.rows.any (fun x => x.title == todo.title) = true
  · have hdup : Todo.save todo ⟨some t⟩
        = (Except.error DbError.uniqueConstraintViolation, ⟨some t⟩) := by
      simp [Todo.save, hany]
    rw [hdup] at h
    simp at h
  · have hfresh : ∀ x ∈ t.rows, x.title ≠ todo.title := by
      rw [Bool.not_eq_true, List.any_eq_false] at hany
      intro x hx
      simpa using hany x hx
    rw [save_ok_eq todo ⟨some t⟩ t rfl hfresh] at h
    rw [Prod.mk.injEq] at h
    obtain ⟨h1, h2⟩ := h
    obtain rfl : (⟨t.nextId, todo.title, todo.description, todo.complete⟩ : Todo) = r :=
      Except.ok.inj h1
    subst h2
    exact ⟨rfl, rfl, rfl, rfl, rfl⟩

/-- Claim C8 witness: a concrete successful save on the fresh store returns
the row with the assigned id 1 and appends exactly that row. -/
theorem C8_witness :
    (⟨1, "a", "b", true⟩ : Todo).id = (⟨[], 1⟩ : Table).nextId ∧
    (⟨1, "a", "b", true⟩ : Todo).title = (⟨0, "a", "b", true⟩ : Todo).title ∧
    (⟨1, "a", "b", true⟩ : Todo).description = (⟨0, "a", "b", true⟩ : Todo).description ∧
    (⟨1, "a", "b", true⟩ : Todo).complete = (⟨0, "a", "b", true⟩ : Todo).complete ∧
    (⟨some ⟨[⟨1, "a", "b", true⟩], 2⟩⟩ : DBState)
      = ⟨some ⟨(⟨[], 1⟩ : Table).rows ++ [⟨1, "a", "b", true⟩],
              (⟨[], 1⟩ : Table).nextId + 1⟩⟩ :=
  C8_save_frame ⟨0, "a", "b", true⟩ ⟨1, "a", "b", true⟩ initState
    ⟨some ⟨[⟨1, "a", "b", true⟩], 2⟩⟩ ⟨[], 1⟩ rfl rfl

/-! ### The new command of the CLI (src/main.rs) -/

/-- Rust's str::trim over the character list of a string: remove trailing
whitespace (reverse, drop the now-leading whitespace, reverse back), then
remove leading whitespace.  Whitespace is modelled by Char.isWhitespace. -/
def rustTrimList (l : List Char) : List Char :=
  List.dropWhile Char.isWhitespace
    (List.reverse (List.dropWhile Char.isWhitespace (List.reverse l)))

/-- str::trim on strings. -/
def rustTrim (s : String) : String := String.mk (rustTrimList s.data)

/-- create_new_todo of src/main.rs lines 98-132, as a function of its input
sources: the optional command-line title, the line read from standard input
for the title (used only when no command-line title was given; it arrives
with its trailing newline), and the line read for the description.  It
builds the record that is handed to the client to persist: both title and
description trimmed, completion false, and the placeholder id -1. -/
def create_new_todo (titleArg : Option String) (stdinTitleLine stdinDescLine : String) :
    Todo :=
  let title_str :=
    match titleArg with
    | some t => t
    | none => stdinTitleLine
  { id := -1, title := rustTrim title_str,
    description := rustTrim stdinDescLine, complete := false }

theorem head?_dropWhile_false (p : Char → Bool) (l : List Char) (c : Char)
    (h : (l.dropWhile p).head? = some c) : p c = false := by
  induction l with
  | nil => cases h
  | cons a l ih =>
    rw [List.dropWhile_cons] at h
    by_cases hpa : p a = true
    · rw [if_pos hpa] at h
      exact ih h
    · rw [if_neg hpa] at h
      obtain rfl : a = c := Option.some.inj h
      simpa using hpa

theorem getLast?_dropWhile_some (p : Char → Bool) (l : List Char) (c : Char)
    (h : (l.dropWhile p).getLast? = some c) : l.getLast? = some c := by
  obtain ⟨u, hu⟩ := List.dropWhile_suffix (l := l) p
  rw [← hu, List.getLast?_append, h]
  rfl

theorem rustTrimList_head (l : List Char) (c : Char)
    (h : (rustTrimList l).head? = some c) : c.isWhitespace = false :=
  head?_dropWhile_false _ _ c h

theorem rustTrimList_getLast (l : List Char) (c : Char)
    (h : (rustTrimList l).getLast? = some c) : c.isWhitespace = false := by
  have h2 := getLast?_dropWhile_some _ _ c h
  rw [List.getLast?_reverse] at h2
  exact head?_dropWhile_false _ _ c h2

theorem rustTrimList_concat_ws (l : List Char) (c : Char) (hc : c.isWhitespace = true) :
    rustTrimList (l ++ [c]) = rustTrimList l := by
  simp only [rustTrimList]
  rw [List.reverse_append]
  simp only [List.reverse_cons, List.reverse_nil, List.nil_append, List.singleton_append]
  rw [List.dropWhile_cons, if_pos hc]

theorem rustTrim_concat_newline (s : String) : rustTrim (s ++ "\n") = rustTrim s := by
  simp only [rustTrim]
  have hd : (s ++ "\n").data = s.data ++ ['\n'] := by
    rw [String.data_append]
  rw [hd, rustTrimList_concat_ws s.data '\n' (by decide)]

/-- Claim C10: whichever way the title is obtained (command line or standard
input), the record built by the new command carries id -1 and complete =
false, its title and description have no leading or trailing whitespace, and
a trailing newline on either interactive input line is stripped. -/
theorem C10_create_new_todo (titleArg : Option String)
    (stdinTitleLine stdinDescLine : String) :
    (create_new_todo titleArg stdinTitleLine stdinDescLine).id = -1 ∧
    (create_new_todo titleArg stdinTitleLine stdinDescLine).complete = false ∧
    (∀ c, (create_new_todo titleArg stdinTitleLine stdinDescLine).title.data.head?
        = some c → c.isWhitespace = false) ∧
    (∀ c, (create_new_todo titleArg stdinTitleLine stdinDescLine).title.data.getLast?
        = some c → c.isWhitespace = false) ∧
    (∀ c, (create_new_todo titleArg stdinTitleLine stdinDescLine).description.data.head?
        = some c → c.isWhitespace = false) ∧
    (∀ c, (create_new_todo titleArg stdinTitleLine stdinDescLine).description.data.getLast?
        = some c → c.isWhitespace = false) ∧
    create_new_todo titleArg stdinTitleLine (stdinDescLine ++ "\n")
      = create_new_todo titleArg stdinTitleLine stdinDescLine ∧
    create_new_todo none (stdinTitleLine ++ "\n") stdinDescLine
      = create_new_todo none stdinTitleLine stdinDescLine := by
  refine ⟨rfl, rfl, ?_, ?_, ?_, ?_, ?_, ?_⟩
  · intro c h
    exact rustTrimList_head _ c h
  · intro c h
    exact rustTrimList_getLast _ c h
  · intro c h
    exact rustTrimList_head _ c h
  · intro c h
    exact rustTrimList_getLast _ c h
  · simp only [create_new_todo, rustTrim_concat_newline]
  · simp only [create_new_todo, rustTrim_concat_newline]

/-- Claim C10 witness: the record built from interactive input with padded
title and description. -/
theorem C10_witness :
    (create_new_todo none "  My title\n" " desc \n").id = -1 ∧
    (create_new_todo none "  My title\n" " desc \n").complete = false ∧
    (∀ c, (create_new_todo none "  My title\n" " desc \n").title.data.head?
        = some c → c.isWhitespace = false) ∧
    (∀ c, (create_new_todo none "  My title\n" " desc \n").title.data.getLast?
        = some c → c.isWhitespace = false) ∧
    (∀ c, (create_new_todo none "  My title\n" " desc \n").description.data.head?
        = some c → c.isWhitespace = false) ∧
    (∀ c, (create_new_todo none "  My title\n" " desc \n").description.data.getLast?
        = some c → c.isWhitespace = false) ∧
    create_new_todo none "  My title\n" (" desc \n" ++ "\n")
      = create_new_todo none "  My title\n" " desc \n" ∧
    create_new_todo none ("  My title\n" ++ "\n") " desc \n"
      = create_new_todo none "  My title\n" " desc \n" :=
  C10_create_new_todo none "  My title\n" " desc \n"

end Rtd
